import Mathlib

/-!
# Verification of the tornado-based forwarding HTTP proxy (`proxy/proxy.py`)

This file gives a shallow embedding of the proxy's pure core: the small
byte-string parsers (`header_parser`, `hostport_parser`, `netloc_parser`),
the rule table of `RulesConnector` (`load_rules` and rule dispatch), the
SOCKS4 and HTTP-CONNECT wire formats, and the per-session protocol handlers
(`ProxyHandler.on_method`, `on_headers`, `on_connected`,
`on_connect_connected`).

Byte strings that the Python code manipulates as `bytes` or `str` are
modelled as `List Char` (each `Char` standing for one byte; all inputs of
interest are ASCII), except where byte arithmetic matters (SOCKS4 framing,
base64), where `List Nat` is used with each entry a byte value.

Python library behaviour that the source calls into (`str.split`,
`str.strip`, `re`, `base64.encodebytes`, `urllib.parse`) is modelled by
executable Lean functions following the CPython implementations; the model
of `re` covers the fragment of regular-expression syntax needed here
(literals, `.`, postfix `*`, `\`-escapes), with unsupported constructs
failing to compile exactly like a `re.error` would.

Side-effecting handler code is modelled by the list of observable actions
(writes to the client or upstream stream, closes, relay start) the handler
performs, in program order.
-/

namespace Proxy

/-! ## Python string primitives -/

/-- The characters Python `bytes.strip` / `str.strip` treat as whitespace. -/
def isPySpace (c : Char) : Bool :=
  c = ' ' || c = '\t' || c = '\n' || c = '\r' || c = '\x0b' || c = '\x0c'

/-- Python `s.strip()`: remove leading and trailing whitespace. -/
def pyStrip (l : List Char) : List Char :=
  ((l.dropWhile isPySpace).reverse.dropWhile isPySpace).reverse

/-- Python `s.split(sep)` with a one-character separator: split on every
occurrence, preserving empty fields; `b''.split(b' ') = [b'']`. -/
def pySplitChar (sep : Char) : List Char → List (List Char)
  | [] => [[]]
  | c :: rest =>
    if c = sep then [] :: pySplitChar sep rest
    else
      match pySplitChar sep rest with
      | [] => [[c]]
      | h :: t => (c :: h) :: t

/-- Helper for `pyWsSplit`: `cur` holds the current word, reversed. -/
def pyWsSplitAux : List Char → List Char → List (List Char)
  | [], cur => if cur = [] then [] else [cur.reverse]
  | c :: rest, cur =>
    if isPySpace c then
      if cur = [] then pyWsSplitAux rest []
      else cur.reverse :: pyWsSplitAux rest []
    else pyWsSplitAux rest (c :: cur)

/-- Python `s.split()` with no argument: split on runs of whitespace,
discarding empty fields. -/
def pyWsSplit (l : List Char) : List (List Char) := pyWsSplitAux l []

/-- Python `s.find(c)` for a one-character needle, as an `Option`
(`none` models the return value `-1`). -/
def pyFind (c : Char) : List Char → Option Nat
  | [] => none
  | x :: xs =>
    if x = c then some 0
    else (pyFind c xs).map (· + 1)

/-- Python `s.rfind(c)` for a one-character needle, as an `Option`. -/
def pyRFind (c : Char) : List Char → Option Nat
  | [] => none
  | x :: xs =>
    match pyRFind c xs with
    | some i => some (i + 1)
    | none => if x = c then some 0 else none

/-- Decimal value of a digit string. -/
def digitsVal (s : List Char) : Nat :=
  s.foldl (fun acc d => 10 * acc + (d.toNat - 48)) 0

/-- No two adjacent underscores. -/
def noDoubleUnderscore : List Char → Bool
  | '_' :: '_' :: _ => false
  | _ :: rest => noDoubleUnderscore rest
  | [] => true

/-- Python `int(s)` for ASCII decimal input: optional surrounding
whitespace, optional sign, then digits with single underscores permitted
between digits (`digit (('_')? digit)*`).  `none` models a raised
`ValueError`.  (Non-ASCII digit forms accepted by CPython are outside the
byte strings this program feeds to `int()`.) -/
def pyInt (l : List Char) : Option Int :=
  let t := pyStrip l
  let core : List Char → Option Nat := fun ds =>
    if !ds.isEmpty && ds.all (fun c => c.isDigit || c = '_')
        && (ds.headD '_').isDigit && (ds.getLast?.getD '_').isDigit
        && noDoubleUnderscore ds then
      some (digitsVal (ds.filter Char.isDigit))
    else none
  match t with
  | '-' :: ds => (core ds).map (fun n => -(n : Int))
  | '+' :: ds => (core ds).map (fun n => (n : Int))
  | ds => (core ds).map (fun n => (n : Int))

/-- Split a byte string at every occurrence of `\r\n`
(Python `buf.split(b'\r\n')`). -/
def splitCRLF : List Char → List (List Char)
  | [] => [[]]
  | '\r' :: '\n' :: rest => [] :: splitCRLF rest
  | c :: rest =>
    match splitCRLF rest with
    | [] => [[c]]
    | h :: t => (c :: h) :: t

/-- `List Char` view of a string literal. -/
def chars (s : String) : List Char := s.data

/-! ## The small parsers at the top of `proxy.py` -/

/-- `header_parser` (proxy.py:27-31): for each `\r\n`-separated line, if it
contains a colon at index `i`, yield the pair `(line[:i], line[i+2:])`;
lines without a colon yield nothing. -/
def headerParser (headers : List Char) : List (List Char × List Char) :=
  (splitCRLF headers).filterMap fun header =>
    match pyFind ':' header with
    | some i => some (header.take i, header.drop (i + 2))
    | none => none

/-- `hostport_parser` (proxy.py:34-39): split `host:port` at the first
colon; without a colon, use the default port. `none` models the
`ValueError` raised by `int()` on a malformed port. -/
def hostportParser (hostport : List Char) (defaultPort : Int) :
    Option (List Char × Int) :=
  match pyFind ':' hostport with
  | some i => (pyInt (hostport.drop (i + 1))).map fun p => (hostport.take i, p)
  | none => some (hostport, defaultPort)

/-- `netloc_parser` (proxy.py:42-48): split at the last `@`; the part
before it is the credential (`none` when there is no `@`), the part after
it the host portion. -/
def netlocParser (netloc : List Char) : Option (List Char) × List Char :=
  match pyRFind '@' netloc with
  | some i => (some (netloc.take i), netloc.drop (i + 1))
  | none => (none, netloc)

/-! ### Facts about `pyFind` / `pyRFind` -/

theorem pyFind_append_left (c : Char) (a b : List Char) (i : Nat)
    (h : pyFind c a = some i) : pyFind c (a ++ b) = some i := by
  induction a generalizing i with
  | nil => simp [pyFind] at h
  | cons x xs ih =>
    simp only [pyFind, List.cons_append] at h ⊢
    by_cases hx : x = c
    · simpa [hx] using h
    · simp only [hx, if_false, Option.map_eq_some'] at h ⊢
      obtain ⟨j, hj, rfl⟩ := h
      exact ⟨j, ih j hj, rfl⟩

theorem pyFind_append_right (c : Char) (a b : List Char) (h : c ∉ a) :
    pyFind c (a ++ b) = (pyFind c b).map (· + a.length) := by
  induction a with
  | nil => simp
  | cons x xs ih =>
    simp only [List.mem_cons, not_or] at h
    have hx : ¬ x = c := fun hc => h.1 hc.symm
    have step : pyFind c ((x :: xs) ++ b) = (pyFind c (xs ++ b)).map (· + 1) := by
      show (if x = c then some 0 else (pyFind c (xs ++ b)).map (· + 1)) = _
      rw [if_neg hx]
    rw [step, ih h.2]
    cases pyFind c b with
    | none => rfl
    | some j =>
      simp only [Option.map_some', List.length_cons]
      exact congrArg some (by omega)

theorem pyRFind_eq_none (c : Char) (l : List Char) :
    pyRFind c l = none ↔ c ∉ l := by
  induction l with
  | nil => simp [pyRFind]
  | cons x xs ih =>
    simp only [pyRFind, List.mem_cons]
    cases h : pyRFind c xs with
    | some i =>
      have hmem : c ∈ xs := by
        by_contra hm
        rw [ih.mpr hm] at h
        cases h
      simp [hmem]
    | none =>
      have hxs : c ∉ xs := ih.mp h
      by_cases hx : x = c
      · simp [hx]
      · rw [if_neg hx]
        constructor
        · intro _ hc
          rcases hc with h1 | h2
          · exact hx h1.symm
          · exact hxs h2
        · intro _
          rfl

/-- `pyRFind` on `a ++ [c] ++ b` with `c ∉ b` finds exactly the length of
`a`: the split-at-last-`@` point. -/
theorem pyRFind_append_sep (c : Char) (a b : List Char) (h : c ∉ b) :
    pyRFind c (a ++ c :: b) = some a.length := by
  induction a with
  | nil =>
    show (match pyRFind c b with
      | some i => some (i + 1)
      | none => if c = c then some 0 else none) = some 0
    rw [(pyRFind_eq_none c b).mpr h]
    simp
  | cons x xs ih =>
    show (match pyRFind c (xs ++ c :: b) with
      | some i => some (i + 1)
      | none => if x = c then some 0 else none) = some (xs.length + 1)
    rw [ih]

/-! ## Claim C9 and C10 theorems -/

/-- Helper: each yielded header pair corresponds to exactly one line
containing a colon. -/
theorem headerLines_length_aux (lines : List (List Char)) :
    (lines.filterMap fun header =>
      match pyFind ':' header with
      | some i => some (header.take i, header.drop (i + 2))
      | none => none).length
    = (lines.filter (fun h => (pyFind ':' h).isSome)).length := by
  induction lines with
  | nil => rfl
  | cons h t ih =>
    cases hf : pyFind ':' h <;>
      simp [List.filterMap_cons, List.filter_cons, hf, ih]

/-- C9: `header_parser` yields a pair only for lines that contain a colon
(colon-less lines are silently dropped), and the value starts two bytes
after the first colon, so a header written with no space after the colon
loses the first byte of its value.  Formally: (1) on any header block, a
line without a colon contributes no pair; (2) a line `name ++ ":" ++ v`
with no colon in `name` contributes the pair `(name, v.drop 1)` — that is,
`v` minus its first byte; with `": "` after the name the value is intact. -/
theorem c9_header_parser_colon_semantics :
    (∀ block : List Char,
      (headerParser block).length =
        ((splitCRLF block).filter (fun h => (pyFind ':' h).isSome)).length)
    ∧ (∀ name v : List Char, ':' ∉ name →
        (match pyFind ':' (name ++ ':' :: v) with
          | some i => some ((name ++ ':' :: v).take i, (name ++ ':' :: v).drop (i + 2))
          | none => (none : Option (List Char × List Char)))
          = some (name, v.drop 1))
    ∧ headerParser (chars "Host:example.com") = [(chars "Host", chars "xample.com")]
    ∧ headerParser (chars "nocolonline\r\nHost: h") = [(chars "Host", chars "h")] := by
  refine ⟨?_, ?_, by decide, by decide⟩
  · intro block
    exact headerLines_length_aux (splitCRLF block)
  · intro name v hn
    have hfind : pyFind ':' (name ++ ':' :: v) = some name.length := by
      have h1 : pyFind ':' (name ++ ':' :: v) =
          (pyFind ':' (':' :: v)).map (· + name.length) :=
        pyFind_append_right ':' name (':' :: v) hn
      rw [h1]
      simp [pyFind]
    rw [hfind]
    simp only [Option.some.injEq, Prod.mk.injEq]
    exact ⟨List.take_left name (':' :: v), List.drop_append 2⟩

/-- C10: `netloc_parser` splits at the last `@`: for every authority of the
shape `a ++ "@" ++ b` with no `@` in `b` (so `a` may itself contain `@`),
the credential is `a` and the host portion is `b`; for every authority with
no `@` at all, the credential is absent and the whole string is the host
portion. -/
theorem c10_netloc_split_at_last_at (a b s : List Char)
    (hb : '@' ∉ b) (hs : '@' ∉ s) :
    netlocParser (a ++ '@' :: b) = (some a, b) ∧ netlocParser s = (none, s) := by
  constructor
  · unfold netlocParser
    rw [pyRFind_append_sep '@' a b hb]
    simp only [Prod.mk.injEq, Option.some.injEq]
    exact ⟨List.take_left a ('@' :: b), List.drop_append 1⟩
  · unfold netlocParser
    rw [(pyRFind_eq_none '@' s).mpr hs]

/-- Witness for C10 at a concrete input: password containing `@`. -/
theorem c10_netloc_split_at_last_at_witness :
    netlocParser (chars "user:p@ss@proxy.example:3128")
      = (some (chars "user:p@ss"), chars "proxy.example:3128")
    ∧ netlocParser (chars "proxy.example") = (none, chars "proxy.example") :=
  c10_netloc_split_at_last_at (chars "user:p@ss") (chars "proxy.example:3128")
    (chars "proxy.example") (by decide) (by decide)

/-! ## A model of the fragment of Python `re` used by the rule table

`RulesConnector.load_rules` compiles each rule pattern with
`re.compile(pattern, re.I)` and `RulesConnector.connect` tests targets
with `re.match`, which succeeds when some *prefix* of the string matches.
The model covers literals, `.` (any byte except newline), postfix `*`,
and `\`-escaped punctuation; any other construct fails to compile, which
`load_rules` treats the same way as a `re.error` (skip the line). -/

inductive Regex where
  | emp : Regex
  | eps : Regex
  | any : Regex
  | lit (c : Char) : Regex
  | alt (a b : Regex) : Regex
  | seq (a b : Regex) : Regex
  | star (r : Regex) : Regex
deriving DecidableEq

/-- Does the regex accept the empty string? -/
def Regex.nullable : Regex → Bool
  | .emp => false
  | .eps => true
  | .any => false
  | .lit _ => false
  | .alt a b => a.nullable || b.nullable
  | .seq a b => a.nullable && b.nullable
  | .star _ => true

def Regex.isStar : Regex → Bool
  | .star _ => true
  | _ => false

/-- Brzozowski derivative.  `.` does not match a newline (no `re.DOTALL`),
and literals compare case-insensitively (the `re.I` flag). -/
def Regex.deriv : Regex → Char → Regex
  | .emp, _ => .emp
  | .eps, _ => .emp
  | .any, c => if c = '\n' then .emp else .eps
  | .lit a, c => if a.toLower = c.toLower then .eps else .emp
  | .alt a b, c => .alt (a.deriv c) (b.deriv c)
  | .seq a b, c =>
    if a.nullable then .alt (.seq (a.deriv c) b) (b.deriv c)
    else .seq (a.deriv c) b
  | .star r, c => .seq (r.deriv c) (.star r)

/-- `re.match(r, s)` as a Bool: does some prefix of `s` match `r`? -/
def reMatch (r : Regex) : List Char → Bool
  | [] => r.nullable
  | c :: cs => r.nullable || reMatch (r.deriv c) cs

/-- Regex metacharacters the model does not support; a pattern containing
one fails to compile. -/
def regexSpecials : List Char :=
  ['(', ')', '[', ']', '|', '+', '?', '^', '$', '\x7b', '\x7d']

/-- Parse a pattern left to right into a stack of atoms (kept reversed);
`*` wraps the preceding atom. -/
def compileAtoms : List Char → List Regex → Option (List Regex)
  | [], acc => some acc
  | '*' :: rest, a :: acc =>
    if a.isStar then none else compileAtoms rest (Regex.star a :: acc)
  | '*' :: _, [] => none
  | '.' :: rest, acc => compileAtoms rest (Regex.any :: acc)
  | ['\\'], _ => none
  | '\\' :: c :: rest, acc =>
    if c.isAlphanum then none else compileAtoms rest (Regex.lit c :: acc)
  | c :: rest, acc =>
    if c ∈ regexSpecials then none else compileAtoms rest (Regex.lit c :: acc)

def seqAll (rs : List Regex) : Regex := rs.foldr Regex.seq Regex.eps

/-- `re.compile(pattern, re.I)`; `none` models a raised `re.error` (or a
construct outside the modelled fragment). -/
def compileRegex (pat : List Char) : Option Regex :=
  (compileAtoms pat []).map (fun acc => seqAll acc.reverse)

/-- A stored rule pattern: `load_rules` stores compiled patterns for file
lines but stores the final catch-all as the *raw string* `'.*'`;
`re.match` accepts both, compiling a raw string on use. -/
inductive RulePat where
  | raw (s : List Char)
  | compiled (r : Regex)
deriving DecidableEq

/-- `re.match(rule, s)` for a stored pattern.  A raw pattern that fails to
compile would raise in `re.match`; modelled as no-match (the only raw
pattern the source ever stores is `'.*'`, which compiles). -/
def RulePat.matchesStr : RulePat → List Char → Bool
  | .raw s, l =>
    match compileRegex s with
    | some r => reMatch r l
    | none => false
  | .compiled r, l => reMatch r l

/-! ## Model of `urllib.parse` (CPython 3.11) -/

/-- `urlsplit` removes every tab, CR and LF from the URL. -/
def removeUnsafeUrlChars (l : List Char) : List Char :=
  l.filter fun c => !(c = '\t' || c = '\r' || c = '\n')

/-- `urlsplit` strips leading C0-control-or-space characters. -/
def lstripControlOrSpace (l : List Char) : List Char :=
  l.dropWhile (fun c => c.toNat ≤ 32)

def isSchemeChar (c : Char) : Bool :=
  c.isAlphanum || c = '+' || c = '-' || c = '.'

structure UrlSplit where
  scheme : List Char
  netloc : List Char
  path : List Char
  query : List Char
  fragment : List Char
deriving DecidableEq

/-- The `scheme:` split of `urlsplit`: when the first `:` is preceded by a
nonempty run of scheme characters starting with an ASCII letter, the
scheme (lower-cased) is split off. -/
def splitSchemeModel (url : List Char) : List Char × List Char :=
  match pyFind ':' url with
  | some i =>
    if i != 0 && (url.headD ' ').isAlpha && (url.take i).all isSchemeChar then
      ((url.take i).map Char.toLower, url.drop (i + 1))
    else ([], url)
  | none => ([], url)

/-- Not a netloc delimiter (`_splitnetloc` scans up to the first `/?#`). -/
def notNetlocDelim (c : Char) : Bool := !(c = '/' || c = '?' || c = '#')

/-- The `//netloc` split of `urlsplit` (`_splitnetloc`). -/
def splitNetlocModel (url : List Char) : List Char × List Char :=
  if url.take 2 = ['/', '/'] then
    ((url.drop 2).takeWhile notNetlocDelim, (url.drop 2).dropWhile notNetlocDelim)
  else ([], url)

/-- The fragment split of `urlsplit`: at the first `#`. -/
def splitFragModel (url : List Char) : List Char × List Char :=
  match pyFind '#' url with
  | some i => (url.take i, url.drop (i + 1))
  | none => (url, [])

/-- The query split of `urlsplit`: at the first `?`. -/
def splitQueryModel (url : List Char) : List Char × List Char :=
  match pyFind '?' url with
  | some i => (url.take i, url.drop (i + 1))
  | none => (url, [])

/-! #### CPython's IPv6-bracket validation in `urlsplit`

After `_splitnetloc`, CPython raises `ValueError('Invalid IPv6 URL')` for
a netloc with an unmatched bracket, and for a matched bracket pair
validates the bracketed host with `_check_bracketed_host`: an IPvFuture
literal when it starts with `v` (checked with
`re.match(r"\Av[a-fA-F0-9]+\..+\Z", …)`), otherwise
`ipaddress.ip_address(…)`, which must succeed and yield an IPv6 (not
IPv4) address.  The functions below model that validation; `false` means
the raise. -/

/-- `ipaddress._HEX_DIGITS` membership. -/
def isHexDigitChar (c : Char) : Bool :=
  c.isDigit || ('a' ≤ c && c ≤ 'f') || ('A' ≤ c && c ≤ 'F')

/-- `re.match(r"\Av[a-fA-F0-9]+\..+\Z", h)` as a Bool: `v`, a nonempty hex
run, a dot, then at least one character, none of them a newline (`.` does
not match a newline and `\Z` forces full coverage). -/
def ipvFutureOk (h : List Char) : Bool :=
  match h with
  | 'v' :: rest =>
    let hexs := rest.takeWhile isHexDigitChar
    let tail := rest.dropWhile isHexDigitChar
    !hexs.isEmpty &&
      (match tail with
       | '.' :: t => !t.isEmpty && t.all (fun c => !(c = '\n'))
       | _ => false)
  | _ => false

/-- `IPv6Address._parse_hextet` as a validity check: 1-4 hex digits. -/
def parseHextetOk (s : List Char) : Bool :=
  !s.isEmpty && s.length ≤ 4 && s.all isHexDigitChar

/-- `IPv4Address._parse_octet` as a validity check: 1-3 ASCII digits, no
leading zero unless the octet is `0`, value at most 255. -/
def parseOctetOk (s : List Char) : Bool :=
  !s.isEmpty && s.all Char.isDigit && s.length ≤ 3 &&
    (s = ['0'] || !(s.headD '0' = '0')) && digitsVal s ≤ 255

/-- `IPv4Address._ip_int_from_string` as a validity check. -/
def ipv4Ok (s : List Char) : Bool :=
  let octets := pySplitChar '.' s
  octets.length = 4 && octets.all parseOctetOk

/-- The `::` analysis of `IPv6Address._ip_int_from_string` on the
colon-split parts (an embedded IPv4 tail has already been replaced by two
placeholder hextets). -/
def ipv6PartsOk (parts : List (List Char)) : Bool :=
  let n := parts.length
  if n > 9 then false
  else
    let interior := (parts.drop 1).take (n - 2)
    let empties := interior.filter (fun x => x.isEmpty)
    if empties.length > 1 then false
    else if empties.length = 1 then
      let skipIdx := 1 + interior.findIdx (fun x => x.isEmpty)
      let hi0 := skipIdx
      let lo0 := n - skipIdx - 1
      let headEmpty := (parts.headD []).isEmpty
      let lastEmpty := (parts.getLast?.getD []).isEmpty
      if headEmpty && !(hi0 - 1 = 0) then false
      else if lastEmpty && !(lo0 - 1 = 0) then false
      else
        let hi1 := if headEmpty then hi0 - 1 else hi0
        let lo1 := if lastEmpty then lo0 - 1 else lo0
        if hi1 + lo1 ≥ 8 then false
        else (parts.take hi1).all parseHextetOk
          && (parts.drop (n - lo1)).all parseHextetOk
    else
      (n = 8) && !(parts.headD []).isEmpty
        && !(parts.getLast?.getD []).isEmpty && parts.all parseHextetOk

/-- `IPv6Address._ip_int_from_string` as a validity check: colon split,
minimum three parts, optional embedded IPv4 tail, then the `::`
analysis. -/
def ipv6CoreOk (s : List Char) : Bool :=
  let parts0 := pySplitChar ':' s
  if parts0.length < 3 then false
  else
    let lastP := parts0.getLast?.getD []
    if lastP.contains '.' then
      if ipv4Ok lastP then ipv6PartsOk (parts0.dropLast ++ [['0'], ['0']])
      else false
    else ipv6PartsOk parts0

/-- `IPv6Address` string validity including `_split_scope_id`: an
optional `%scope` suffix must be nonempty and contain no further `%`. -/
def ipv6Ok (s : List Char) : Bool :=
  match pyFind '%' s with
  | some i =>
    let scope := s.drop (i + 1)
    !scope.isEmpty && !(scope.contains '%') && ipv6CoreOk (s.take i)
  | none => ipv6CoreOk s

/-- `netloc.partition('[')[2].partition(']')[0]`: the text between the
first `[` and the first following `]`. -/
def bracketedHost (netloc : List Char) : List Char :=
  let afterLb :=
    match pyFind '[' netloc with
    | some i => netloc.drop (i + 1)
    | none => []
  match pyFind ']' afterLb with
  | some j => afterLb.take j
  | none => afterLb

/-- `_check_bracketed_host`: IPvFuture when it starts with `v`, else the
host must parse as an IPv6 address (a valid IPv4 address, or anything
else, raises). -/
def checkBracketedHost (h : List Char) : Bool :=
  match h with
  | 'v' :: _ => ipvFutureOk h
  | _ => ipv6Ok h

/-- The bracket validation `urlsplit` applies to the netloc: unmatched
brackets raise `ValueError('Invalid IPv6 URL')`; matched brackets
validate the bracketed host.  (CPython runs the check only inside the
`//netloc` branch; a URL without `//` has an empty netloc, on which the
check passes trivially, so applying it unconditionally is equivalent.) -/
def netlocBracketsOk (netloc : List Char) : Bool :=
  let hasLb := netloc.contains '['
  let hasRb := netloc.contains ']'
  if (hasLb && !hasRb) || (hasRb && !hasLb) then false
  else if hasLb && hasRb then checkBracketedHost (bracketedHost netloc)
  else true

/-- The scheme/netloc/fragment/query stages of `urlsplit`, applied to an
already-sanitized URL; `none` models the `ValueError` raised for an
invalid bracketed netloc. -/
def urlsplitSanitized (url1 : List Char) : Option UrlSplit :=
  if netlocBracketsOk (splitNetlocModel (splitSchemeModel url1).2).1 then
    some ⟨(splitSchemeModel url1).1,
      (splitNetlocModel (splitSchemeModel url1).2).1,
      (splitQueryModel (splitFragModel (splitNetlocModel (splitSchemeModel url1).2).2).1).1,
      (splitQueryModel (splitFragModel (splitNetlocModel (splitSchemeModel url1).2).2).1).2,
      (splitFragModel (splitNetlocModel (splitSchemeModel url1).2).2).2⟩
  else none

/-- CPython `urlsplit`: sanitize, split off `scheme:` when the prefix is
a well-formed scheme, then `//netloc` up to the first `/?#` (validating
brackets, `none` modelling the `ValueError`), then the fragment at the
first `#`, then the query at the first `?`. -/
def urlsplitModel (url0 : List Char) : Option UrlSplit :=
  urlsplitSanitized (removeUnsafeUrlChars (lstripControlOrSpace url0))

/-- Python `s.find(c, start)`: first occurrence at index `≥ start`. -/
def pyFindFrom (c : Char) (start : Nat) (l : List Char) : Option Nat :=
  (pyFind c (l.drop start)).map (· + start)

/-- CPython `_splitparams`: split the params off the last path segment. -/
def splitparamsModel (url : List Char) : List Char × List Char :=
  if url.contains '/' then
    match pyFindFrom ';' ((pyRFind '/' url).getD 0) url with
    | some i => (url.take i, url.drop (i + 1))
    | none => (url, [])
  else
    match pyFind ';' url with
    | some i => (url.take i, url.drop (i + 1))
    | none => (url, [])

structure UrlParts where
  scheme : List Char
  netloc : List Char
  path : List Char
  params : List Char
  query : List Char
  fragment : List Char
deriving DecidableEq

/-- The params-splitting step of `urlparse`, on an `urlsplit` result. -/
def paramsSplit (s : UrlSplit) : UrlParts :=
  if s.path.contains ';' then
    ⟨s.scheme, s.netloc, (splitparamsModel s.path).1,
     (splitparamsModel s.path).2, s.query, s.fragment⟩
  else ⟨s.scheme, s.netloc, s.path, [], s.query, s.fragment⟩

/-- CPython `urlparse`: `urlsplit` plus params splitting; `none`
propagates `urlsplit`'s `ValueError`. -/
def urlparseModel (url : List Char) : Option UrlParts :=
  (urlsplitModel url).map paramsSplit

/-- `urlunsplit(('', '', path(;params), query, fragment))`: with empty
scheme and netloc, CPython's netloc branch does not fire, so this just
reattaches params, query and fragment to the path. -/
def unparsePathOnly (p : UrlParts) : List Char :=
  let u1 := if p.params ≠ [] then p.path ++ ';' :: p.params else p.path
  let u2 := if p.query ≠ [] then u1 ++ '?' :: p.query else u1
  if p.fragment ≠ [] then u2 ++ '#' :: p.fragment else u2

/-- `urlunparse((b'', b'') + urlparse(url)[2:])` (proxy.py:300): the request
target reduced to path(`;`params)(`?`query)(`#`fragment); `none` models
the `ValueError` that `urlparse` raises for an invalid bracketed
netloc. -/
def pathOnly (url : List Char) : Option (List Char) :=
  (urlparseModel url).map unparsePathOnly

/-! ## The connector registry and the rule table -/

/-- `Connector.get(url)` (proxy.py:94-100): `urlparse` the URL, find the
subclass whose `accept` matches the scheme (`reject`, `direct`, `socks`,
`http`, `rules`; the subclass scan raises `NotImplementedError` on any
other scheme), and construct it with `(netloc, path)`.  Construction
itself can raise: `SocksConnector` and `HttpConnector` parse their port
with `int()`.  `RulesConnector` construction reads its rule file; the file
access is modelled as succeeding.  The result is `true` iff `Connector.get`
returns normally. -/
def connectorGetOk (url : List Char) : Bool :=
  match urlsplitModel url with
  | none => false
  | some parts =>
    if parts.scheme = chars "reject" then true
    else if parts.scheme = chars "direct" then true
    else if parts.scheme = chars "socks" then
      (hostportParser parts.netloc 1080).isSome
    else if parts.scheme = chars "http" then
      (hostportParser (netlocParser parts.netloc).2 3128).isSome
    else if parts.scheme = chars "rules" then true
    else false

/-- A loaded rule: stored pattern and upstream URL string. -/
abbrev Rule := RulePat × List Char

/-- The catch-all appended by `load_rules` (proxy.py:252): the raw pair
`['.*', 'direct://']`. -/
def catchAllRule : Rule := (RulePat.raw (chars ".*"), chars "direct://")

/-- One iteration of the `load_rules` loop body (proxy.py:238-251): strip
the line, skip it when blank or starting with `#`, split it into exactly
two whitespace-delimited tokens, validate the upstream via
`Connector.get` and compile the pattern via `re.compile(pattern, re.I)`;
any failure (wrong token count, unknown scheme, bad pattern) skips the
line. -/
def parseRuleLine (l0 : List Char) : Option Rule :=
  let l := pyStrip l0
  if l = [] then none
  else if l.headD ' ' = '#' then none
  else
    match pyWsSplit l with
    | [pat, upstream] =>
      if connectorGetOk upstream then
        match compileRegex pat with
        | some r => some (RulePat.compiled r, upstream)
        | none => none
      else none
    | _ => none

/-- `RulesConnector.load_rules` (proxy.py:235-252), as the final value of
`self.rules`: the accepted lines in file order, then the catch-all
appended unconditionally. -/
def load_rules : List (List Char) → List Rule
  | [] => [catchAllRule]
  | l :: ls =>
    match parseRuleLine l with
    | some r => r :: load_rules ls
    | none => load_rules ls

/-- The successive values of the `self.rules` field while `load_rules`
runs, starting from the value `cur` it was just rebound to: one `append`
per accepted line, the catch-all appended last. -/
def loadRulesStatesFrom (cur : List Rule) : List (List Char) → List (List Rule)
  | [] => [cur ++ [catchAllRule]]
  | l :: ls =>
    match parseRuleLine l with
    | some r => (cur ++ [r]) :: loadRulesStatesFrom (cur ++ [r]) ls
    | none => loadRulesStatesFrom cur ls

/-- The full field-state trace of one `load_rules` call: `self.rules = []`
(proxy.py:236) publishes the empty list first, then the appends follow. -/
def load_rules_states (lines : List (List Char)) : List (List Rule) :=
  [] :: loadRulesStatesFrom [] lines

/-- The rule scan of `RulesConnector.connect` (proxy.py:265-274): match
the target string against the rules in order, first match selecting the
rule's upstream; `none` models the `RuntimeError('no available rule')`
of the loop's `else` branch. -/
def ruleDispatch (rules : List Rule) (s : List Char) : Option (List Char) :=
  (rules.find? (fun r => r.1.matchesStr s)).map (·.2)

/-- The target string `host.decode() + ':' + str(port)` built by
`RulesConnector.connect` (proxy.py:266). -/
def hostPortKey (host : List Char) (port : Int) : List Char :=
  host ++ ':' :: chars (toString port)

/-! ### Rule-table lemmas -/

theorem load_rules_eq_filterMap (lines : List (List Char)) :
    load_rules lines = lines.filterMap parseRuleLine ++ [catchAllRule] := by
  induction lines with
  | nil => rfl
  | cons l ls ih =>
    cases h : parseRuleLine l <;>
      simp [load_rules, List.filterMap_cons, h, ih]

theorem reMatch_of_nullable (r : Regex) (h : r.nullable = true)
    (s : List Char) : reMatch r s = true := by
  cases s <;> simp [reMatch, h]

theorem catchAll_matches (s : List Char) :
    catchAllRule.1.matchesStr s = true := by
  show RulePat.matchesStr (RulePat.raw (chars ".*")) s = true
  have hc : compileRegex (chars ".*") = some (Regex.seq (Regex.star Regex.any) Regex.eps) := by
    rfl
  simp only [RulePat.matchesStr, hc]
  refine reMatch_of_nullable _ ?_ s
  decide

/-- C1: for every rule source, the in-memory rule list produced by
`load_rules` ends with the catch-all rule `('.*', 'direct://')`; that
rule's pattern matches every target string (under `re.match` the `.*`
pattern accepts a — possibly empty — prefix of anything); consequently the
dispatch scan of `RulesConnector.connect` always finds a matching rule. -/
theorem c1_rules_end_with_catch_all (lines : List (List Char)) (s : List Char) :
    (load_rules lines).getLast? = some catchAllRule
    ∧ catchAllRule.1.matchesStr s = true
    ∧ (ruleDispatch (load_rules lines) s).isSome = true := by
  refine ⟨?_, catchAll_matches s, ?_⟩
  · rw [load_rules_eq_filterMap]
    exact List.getLast?_concat _
  · rw [ruleDispatch, Option.isSome_map']
    rw [List.find?_isSome]
    refine ⟨catchAllRule, ?_, catchAll_matches s⟩
    rw [load_rules_eq_filterMap]
    exact List.mem_append_right _ (List.mem_singleton.mpr rfl)

/-! ### C3: the reload is not an atomic snapshot swap -/

theorem loadRulesStatesFrom_ne_nil (cur : List Rule)
    (lines : List (List Char)) : loadRulesStatesFrom cur lines ≠ [] := by
  induction lines generalizing cur with
  | nil => simp [loadRulesStatesFrom]
  | cons l ls ih =>
    cases h : parseRuleLine l <;> simp [loadRulesStatesFrom, h, ih]

theorem loadRulesStatesFrom_last (cur : List Rule) (lines : List (List Char)) :
    (loadRulesStatesFrom cur lines).getLast? = some (cur ++ load_rules lines) := by
  induction lines generalizing cur with
  | nil => simp [loadRulesStatesFrom, load_rules]
  | cons l ls ih =>
    cases h : parseRuleLine l with
    | some r =>
      simp only [loadRulesStatesFrom, h, load_rules]
      rw [List.getLast?_cons, ih (cur ++ [r])]
      simp
    | none =>
      simp only [loadRulesStatesFrom, h, load_rules]
      exact ih cur

theorem loadRulesStatesFrom_prefix (cur : List Rule) (lines : List (List Char)) :
    ∀ st ∈ loadRulesStatesFrom cur lines, ∃ t, st ++ t = cur ++ load_rules lines := by
  induction lines generalizing cur with
  | nil =>
    intro st hst
    simp only [loadRulesStatesFrom, List.mem_singleton] at hst
    subst hst
    exact ⟨[], by simp [load_rules]⟩
  | cons l ls ih =>
    intro st hst
    cases h : parseRuleLine l with
    | some r =>
      simp only [loadRulesStatesFrom, h, List.mem_cons] at hst
      rcases hst with rfl | hst
      · exact ⟨load_rules ls, by simp [load_rules, h]⟩
      · obtain ⟨t, ht⟩ := ih (cur ++ [r]) st hst
        refine ⟨t, ?_⟩
        rw [ht]
        simp [load_rules, h]
    | none =>
      simp only [loadRulesStatesFrom, h] at hst
      obtain ⟨t, ht⟩ := ih cur st hst
      refine ⟨t, ?_⟩
      rw [ht]
      simp [load_rules, h]

/-- C3 counterexample: the claim "any dispatch in progress observes either
the complete old rule list or the complete new rule list, never a
partially built one" fails on the code, which rebinds `self.rules` to `[]`
and then appends in place.  Concretely, reloading the one-line source
`a direct://` over the previously loaded list for an empty source takes
the field through the intermediate value `[]`, which differs from both the
old and the new complete lists, and on which the dispatch scan finds no
rule at all (it would raise `RuntimeError`). -/
theorem c3_counterexample :
    ([] : List Rule) ∈ load_rules_states [chars "a direct://"]
    ∧ ([] : List Rule) ≠ load_rules []
    ∧ ([] : List Rule) ≠ load_rules [chars "a direct://"]
    ∧ ruleDispatch [] (chars "x:80") = none := by
  refine ⟨List.mem_cons_self _ _, ?_, ?_, rfl⟩
  · intro h
    exact absurd h (by decide)
  · intro h
    exact absurd h (by decide)

/-- C3 amended: on every reload the entire table is reparsed, but the
result is *not* published by one atomic assignment of a fully built list:
the live field is first rebound to the empty list and entries are appended
one by one.  What does hold is that every intermediate field state is a
prefix of the final list, the trace starts at `[]`, and the final state is
exactly the fully parsed list ending in the catch-all.  (No session
dispatch actually interleaves, because `load_rules` runs synchronously
within one callback of the single I/O-loop thread.) -/
theorem c3_reload_in_place_prefix_states (lines : List (List Char)) :
    (load_rules_states lines).head? = some []
    ∧ (load_rules_states lines).getLast? = some (load_rules lines)
    ∧ ∀ st ∈ load_rules_states lines, ∃ t, st ++ t = load_rules lines := by
  refine ⟨rfl, ?_, ?_⟩
  · show (([] : List Rule) :: loadRulesStatesFrom [] lines).getLast? = _
    rw [List.getLast?_cons, loadRulesStatesFrom_last [] lines]
    simp
  · intro st hst
    rcases List.mem_cons.mp hst with rfl | hst
    · exact ⟨load_rules lines, rfl⟩
    · simpa using loadRulesStatesFrom_prefix [] lines st hst

/-! ## SOCKS4 connector (proxy.py:145-178) -/

/-- Byte values of an ASCII string. -/
def asciiBytes (s : String) : List Nat := s.data.map Char.toNat

/-- `struct.pack('>H', port)`: the port as two big-endian bytes; used with
`port < 2^16` (outside that range `struct.pack` raises `struct.error`). -/
def pack16be (port : Nat) : List Nat := [port / 256, port % 256]

/-- The request written by `socks_connected` (proxy.py:169-170):
`b'\x04\x01' + struct.pack('>H', port) + b'\x00\x00\x00\x09userid\x00' +
host + b'\x00'`. -/
def socksRequest (host : List Nat) (port : Nat) : List Nat :=
  [0x04, 0x01] ++ pack16be port ++ [0x00, 0x00, 0x00, 0x09]
    ++ asciiBytes "userid" ++ [0x00] ++ host ++ [0x00]

/-- The connector's outcome: `none` for the stream closing before the
8-byte response that `stream.read_bytes(8, socks_response)` awaits
(`socks_close` fires, proxy.py:157-158, `callback(None)`); `some data` for
a delivered response, on which `socks_response` (proxy.py:160-165) hands
the stream over iff `data[1] == 0x5a`.  `true` means the connect callback
receives the stream, `false` means it receives `None`. -/
def socksOutcome (resp : Option (List Nat)) : Bool :=
  match resp with
  | none => false
  | some data => data.getD 1 0 == 0x5a

/-- C4: for every host and 16-bit port, the SOCKS4 connector sends exactly
version `0x04`, command `0x01`, the port as two big-endian bytes, the four
bytes `0.0.0.9`, the null-terminated user id `userid`, and the
null-terminated hostname; and on the 8-byte response it succeeds iff the
byte at offset 1 is `0x5A`, failing on any other value or on closure
before the response. -/
theorem c4_socks4_wire_format (host : List Nat) (port : Nat)
    (hport : port < 65536) :
    socksRequest host port
      = [4, 1, port / 256, port % 256, 0, 0, 0, 9,
         117, 115, 101, 114, 105, 100, 0] ++ host ++ [0]
    ∧ 256 * (port / 256) + port % 256 = port
    ∧ port / 256 < 256
    ∧ socksOutcome none = false
    ∧ ∀ data : List Nat, data.length = 8 →
        (socksOutcome (some data) = true ↔ data.getD 1 0 = 0x5a) := by
  refine ⟨by simp [socksRequest, pack16be, asciiBytes, chars], by omega,
    by omega, rfl, ?_⟩
  intro data _
  simp [socksOutcome]

/-- Witness for C4: host `host`, port 443; a `0x5A` reply succeeds, a
`0x5B` reply fails, closure fails. -/
theorem c4_socks4_wire_format_witness :
    socksRequest [104, 111, 115, 116] 443
      = [4, 1, 1, 187, 0, 0, 0, 9, 117, 115, 101, 114, 105, 100, 0,
         104, 111, 115, 116, 0]
    ∧ socksOutcome (some [0, 90, 7, 7, 7, 7, 7, 7]) = true
    ∧ socksOutcome (some [0, 91, 7, 7, 7, 7, 7, 7]) = false
    ∧ socksOutcome none = false := by
  have h := c4_socks4_wire_format [104, 111, 115, 116] 443 (by decide)
  refine ⟨?_, ?_, by decide, h.2.2.2.1⟩
  · rw [h.1]
    decide
  · exact (h.2.2.2.2 [0, 90, 7, 7, 7, 7, 7, 7] (by decide)).mpr (by decide)

/-! ## HttpConnect credential encoding (proxy.py:183-187, 206-217) -/

/-- The base64 alphabet as byte values (`A-Z a-z 0-9 + /`). -/
def b64table : List Nat :=
  asciiBytes "ABCDEFGHIJKLMNOPQRSTUVWXYZabcdefghijklmnopqrstuvwxyz0123456789+/"

def b64alphabet (n : Nat) : Nat := b64table.getD n 65

/-- Standard base64 of a byte list, with `=` (61) padding and no line
breaks: the per-line core of `base64.encodebytes`, and what "the base64
encoding" denotes in the claim. -/
def b64encode : List Nat → List Nat
  | b1 :: b2 :: b3 :: rest =>
    b64alphabet (b1 / 4) :: b64alphabet ((b1 % 4) * 16 + b2 / 16)
      :: b64alphabet ((b2 % 16) * 4 + b3 / 64) :: b64alphabet (b3 % 64)
      :: b64encode rest
  | [b1, b2] =>
    [b64alphabet (b1 / 4), b64alphabet ((b1 % 4) * 16 + b2 / 16),
     b64alphabet ((b2 % 16) * 4), 61]
  | [b1] => [b64alphabet (b1 / 4), b64alphabet ((b1 % 4) * 16), 61, 61]
  | [] => []

/-- Fuel-indexed worker for `encodebytes`; the fuel (at least the number
of 57-byte chunks) makes the recursion structural. -/
def encodebytesAux : Nat → List Nat → List Nat
  | 0, _ => []
  | _, [] => []
  | fuel + 1, bs =>
    b64encode (bs.take 57) ++ 10 :: encodebytesAux fuel (bs.drop 57)

/-- `base64.encodebytes`: encode successive 57-byte chunks of the input,
terminating each output line (76 chars for a full chunk) with `\n`. -/
def encodebytes (bs : List Nat) : List Nat := encodebytesAux bs.length bs

/-- Whitespace bytes for `bytes.strip()`. -/
def isPySpaceByte (b : Nat) : Bool :=
  b = 9 || b = 10 || b = 11 || b = 12 || b = 13 || b = 32

/-- `bytes.strip()`: remove leading and trailing whitespace bytes. -/
def pyBytesStrip (l : List Nat) : List Nat :=
  ((l.dropWhile isPySpaceByte).reverse.dropWhile isPySpaceByte).reverse

/-- Python `str.encode()` (UTF-8); byte-accurate for code points < 128,
which covers every credential appearing here. -/
def strEncode (s : List Char) : List Nat := s.map Char.toNat

/-- `HttpConnector.__init__` (proxy.py:183-187): split the authority with
`netloc_parser`; when a nonempty credential precedes the last `@`, store
`base64.encodebytes(auth.encode()).strip()`, else store `None`. -/
def httpAuth (netloc : List Char) : Option (List Nat) :=
  match netlocParser netloc with
  | (some auth, _) =>
    if auth = [] then none
    else some (pyBytesStrip (encodebytes (strEncode auth)))
  | (none, _) => none

/-- The `Proxy-Authorization` line written by `http_connected`
(proxy.py:211-212) when a credential is stored:
`b'Proxy-Authorization: Basic ' + self.auth + b'\r\n'`. -/
def proxyAuthHeaderLine (auth : List Nat) : List Nat :=
  asciiBytes "Proxy-Authorization: Basic " ++ auth ++ [13, 10]

/-! ### base64 lemmas -/

theorem b64alphabet_ge (n : Nat) : 43 ≤ b64alphabet n := by
  unfold b64alphabet
  rw [List.getD_eq_getElem?_getD]
  rcases h : b64table[n]? with _ | v
  · simp
  · have hv : v ∈ b64table := List.getElem?_mem h
    have hall : ∀ b ∈ b64table, 43 ≤ b := by decide
    simpa using hall v hv

theorem b64encode_ge (bs : List Nat) : ∀ b ∈ b64encode bs, 43 ≤ b := by
  induction bs using b64encode.induct with
  | case1 b1 b2 b3 rest ih =>
    intro b hb
    simp only [b64encode, List.mem_cons] at hb
    rcases hb with rfl | rfl | rfl | rfl | hb
    · exact b64alphabet_ge _
    · exact b64alphabet_ge _
    · exact b64alphabet_ge _
    · exact b64alphabet_ge _
    · exact ih b hb
  | case2 b1 b2 =>
    intro b hb
    simp only [b64encode, List.mem_cons, List.not_mem_nil, or_false] at hb
    rcases hb with rfl | rfl | rfl | rfl
    · exact b64alphabet_ge _
    · exact b64alphabet_ge _
    · exact b64alphabet_ge _
    · omega
  | case3 b1 =>
    intro b hb
    simp only [b64encode, List.mem_cons, List.not_mem_nil, or_false] at hb
    rcases hb with rfl | rfl | rfl | rfl
    · exact b64alphabet_ge _
    · exact b64alphabet_ge _
    · omega
    · omega
  | case4 =>
    intro b hb
    simp [b64encode] at hb

theorem b64encode_ne_nil (bs : List Nat) (h : bs ≠ []) : b64encode bs ≠ [] := by
  match bs with
  | [] => exact absurd rfl h
  | [b1] => simp [b64encode]
  | [b1, b2] => simp [b64encode]
  | b1 :: b2 :: b3 :: rest => simp [b64encode]

theorem not_pySpaceByte_of_ge (b : Nat) (h : 43 ≤ b) :
    isPySpaceByte b = false := by
  unfold isPySpaceByte
  simp only [Bool.or_eq_false_iff, decide_eq_false_iff_not]
  omega

theorem encodebytesAux_nil (n : Nat) : encodebytesAux n [] = [] := by
  cases n <;> rfl

/-- One short chunk: for nonempty input of at most 57 bytes,
`encodebytes` is the plain base64 encoding followed by one `\n`. -/
theorem encodebytes_small (bs : List Nat) (h1 : bs ≠ [])
    (h2 : bs.length ≤ 57) : encodebytes bs = b64encode bs ++ [10] := by
  cases bs with
  | nil => exact absurd rfl h1
  | cons x xs =>
    show encodebytesAux (x :: xs).length (x :: xs) = _
    rw [List.length_cons]
    show b64encode ((x :: xs).take 57) ++ 10 :: encodebytesAux xs.length ((x :: xs).drop 57) = _
    rw [List.take_of_length_le h2, List.drop_of_length_le h2, encodebytesAux_nil]

/-- Stripping a trailing newline off an all-non-whitespace body. -/
theorem pyBytesStrip_body_newline (xs : List Nat) (hne : xs ≠ [])
    (hall : ∀ b ∈ xs, isPySpaceByte b = false) :
    pyBytesStrip (xs ++ [10]) = xs := by
  unfold pyBytesStrip
  have h1 : (xs ++ [10]).dropWhile isPySpaceByte = xs ++ [10] := by
    cases xs with
    | nil => exact absurd rfl hne
    | cons x xs' =>
      rw [List.cons_append, List.dropWhile_cons_of_neg]
      simp [hall x (List.mem_cons_self x xs')]
  have h2 : xs.reverse.dropWhile isPySpaceByte = xs.reverse := by
    cases hrev : xs.reverse with
    | nil => rfl
    | cons y ys =>
      have hy : y ∈ xs := by
        have hm : y ∈ xs.reverse := by
          rw [hrev]
          exact List.mem_cons_self y ys
        simpa using hm
      rw [List.dropWhile_cons_of_neg]
      simp [hall y hy]
  rw [h1]
  have hrw : (xs ++ [10]).reverse = 10 :: xs.reverse := by simp
  rw [hrw, List.dropWhile_cons_of_pos (by decide), h2, List.reverse_reverse]

/-! ### C5: the credential encoding -/

/-- C5 counterexample: the claim quantifies over every authority with a
credential, but for a 60-byte credential `base64.encodebytes` inserts a
line break after the 76th output character and `.strip()` removes only
the trailing one: the stored value contains an embedded `\n` (byte 10) and
is not the base64 encoding of the credential. -/
theorem c5_counterexample :
    httpAuth (List.replicate 60 'a' ++ '@' :: chars "proxy.example:3128")
      = some (b64encode (List.replicate 57 97)
          ++ 10 :: b64encode (List.replicate 3 97))
    ∧ (b64encode (List.replicate 57 97)
        ++ 10 :: b64encode (List.replicate 3 97)).contains 10 = true
    ∧ b64encode (List.replicate 57 97) ++ 10 :: b64encode (List.replicate 3 97)
        ≠ b64encode (strEncode (List.replicate 60 'a')) := by
  refine ⟨by decide, by decide, by decide⟩

/-- C5 amended: the stored `Proxy-Authorization` value is
`base64.encodebytes(credential.encode()).strip()` — standard base64 with a
line break inserted after every 57 input bytes, then stripped of leading
and trailing whitespace only.  For every credential of at most 57 bytes
(including `alice:secret`) this equals the base64 encoding of the
credential taken verbatim, with no trailing and no embedded whitespace,
and the header line sent is exactly
`Proxy-Authorization: Basic <that value>\r\n`. -/
theorem c5_auth_base64_le57 (auth host : List Char)
    (hne : auth ≠ []) (hhost : '@' ∉ host) (hlen : auth.length ≤ 57) :
    httpAuth (auth ++ '@' :: host) = some (b64encode (strEncode auth))
    ∧ (∀ b ∈ b64encode (strEncode auth), isPySpaceByte b = false)
    ∧ proxyAuthHeaderLine (b64encode (strEncode auth))
        = asciiBytes "Proxy-Authorization: Basic "
            ++ b64encode (strEncode auth) ++ [13, 10] := by
  have hbs_ne : strEncode auth ≠ [] := by
    cases auth with
    | nil => exact absurd rfl hne
    | cons c cs => simp [strEncode]
  have hbs_len : (strEncode auth).length ≤ 57 := by
    simpa [strEncode] using hlen
  have hge := b64encode_ge (strEncode auth)
  have hnospace : ∀ b ∈ b64encode (strEncode auth), isPySpaceByte b = false :=
    fun b hb => not_pySpaceByte_of_ge b (hge b hb)
  refine ⟨?_, hnospace, rfl⟩
  unfold httpAuth netlocParser
  rw [pyRFind_append_sep '@' auth host hhost]
  simp only [List.take_left, if_neg hne]
  rw [encodebytes_small _ hbs_ne hbs_len,
    pyBytesStrip_body_newline _ (b64encode_ne_nil _ hbs_ne) hnospace]

/-- Witness for C5 amended, at the spec's own example: authority
`alice:secret@proxy.example:3128` stores exactly the base64 of
`alice:secret` (`YWxpY2U6c2VjcmV0`), whitespace-free. -/
theorem c5_auth_base64_le57_witness :
    httpAuth (chars "alice:secret@proxy.example:3128")
      = some (asciiBytes "YWxpY2U6c2VjcmV0")
    ∧ ∀ b ∈ asciiBytes "YWxpY2U6c2VjcmV0", isPySpaceByte b = false := by
  have h := c5_auth_base64_le57 (chars "alice:secret")
    (chars "proxy.example:3128") (by decide) (by decide) (by decide)
  have he : chars "alice:secret" ++ '@' :: chars "proxy.example:3128"
      = chars "alice:secret@proxy.example:3128" := by decide
  have hb : b64encode (strEncode (chars "alice:secret"))
      = asciiBytes "YWxpY2U6c2VjcmV0" := by decide
  refine ⟨?_, ?_⟩
  · rw [← he, h.1, hb]
  · rw [← hb]
    exact h.2.1

/-! ## Session handlers (`ProxyHandler`, proxy.py:277-342)

A handler is modelled by the list of observable actions it performs, in
program order. -/

inductive PAction where
  | writeIn (bs : List Char)     -- write to the client (incoming) stream
  | writeOut (bs : List Char)    -- write to the upstream (outgoing) stream
  | closeIn : PAction            -- incoming.close()
  | closeOut : PAction           -- outgoing.close()
  | startRelay : PAction         -- pipe(incoming, outgoing)
  | readBody (n : Int)           -- incoming.read_bytes(n, ...) for a parsed Content-Length
  | relayRespToClient : PAction  -- outgoing.read_until_close(writer_in, writer_in)
  | raiseError : PAction         -- an uncaught ValueError leaves the handler; the
                                 -- callback runner then closes the stream whose
                                 -- callback chain invoked it
deriving DecidableEq

def resp200 : List Char := chars "HTTP/1.1 200 Connection Established\r\n\r\n"

def gone410 : List Char := chars "HTTP/1.1 410 Gone\r\n\r\n"

/-- `ProxyHandler.on_method` (proxy.py:291-295):
`self.method, self.url, self.ver = method.strip().split(b' ')`.
On exactly three tokens the handler proceeds (second component carries
them) and schedules the header read.  Any other token count makes the
unpacking raise `ValueError` out of the read callback; the stream's
callback runner logs the uncaught exception and closes the connection, so
the session aborts with the client closed and nothing written. -/
def on_method (line : List Char) :
    List PAction × Option (List Char × List Char × List Char) :=
  match pySplitChar ' ' (pyStrip line) with
  | [m, u, v] => ([], some (m, u, v))
  | _ => ([PAction.closeIn], none)

/-! ### The `OrderedDict` header collection -/

abbrev Headers := List (List Char × List Char)

/-- `d[k] = v` on an `OrderedDict`: overwrite in place when the key
exists, else append at the end. -/
def odSet (k v : List Char) : Headers → Headers
  | [] => [(k, v)]
  | (k', v') :: rest =>
    if k' = k then (k', v) :: rest else (k', v') :: odSet k v rest

/-- `k in d`. -/
def odContains (k : List Char) (m : Headers) : Bool :=
  m.any (fun kv => kv.1 = k)

/-- `del d[k]`: remove the (unique) entry with key `k`. -/
def odDel (k : List Char) (m : Headers) : Headers :=
  m.eraseP (fun kv => kv.1 = k)

/-- `d[k]` / `k in d` as an `Option`. -/
def odGet (k : List Char) (m : Headers) : Option (List Char) :=
  (m.find? (fun kv => kv.1 = k)).map (·.2)

/-- `OrderedDict(pairs)`: first insertion fixes the position, a later
duplicate key overwrites the value in place. -/
def odOfPairs (ps : List (List Char × List Char)) : Headers :=
  ps.foldl (fun m kv => odSet kv.1 kv.2 m) []

/-- The header rewriting of the plain branch of `on_headers`
(proxy.py:334-336): delete `Proxy-Connection` when present, then force
`Connection: close`. -/
def processPlainHeaders (m : Headers) : Headers :=
  let m1 := if odContains (chars "Proxy-Connection") m
    then odDel (chars "Proxy-Connection") m
    else m
  odSet (chars "Connection") (chars "close") m1

/-- `ProxyHandler.on_connect_connected` (proxy.py:316-325), by cases on
whether the connector delivered a stream (`outgoing` truthy) and whether
the client stream is already closed, so that the 200-response write
raises `StreamClosedError`.  Note that the source calls
`pipe(self.incoming, outgoing)` *after* the `try/except`, not inside it,
so the relay is started even on the exception path. -/
def on_connect_connected (outgoingOk : Bool) (clientClosed : Bool) :
    List PAction :=
  if outgoingOk then
    (if clientClosed then [PAction.closeIn, PAction.closeOut]
     else [PAction.writeIn resp200])
      ++ [PAction.startRelay]
  else [PAction.closeIn]

/-- The write calls of the success branch of `on_connected`
(proxy.py:300-304), with the already-rewritten path `p`: the space-joined
request line `method SP p SP ver CRLF`, one write per header in order,
then the blank line. -/
def requestPayloads (method p ver : List Char) (m : Headers) :
    List (List Char) :=
  (method ++ ' ' :: p ++ ' ' :: ver ++ chars "\r\n")
    :: (m.map fun kv => kv.1 ++ ':' :: ' ' :: kv.2 ++ chars "\r\n")
    ++ [chars "\r\n"]

/-- `if b'Content-Length' in self.headers:
incoming.read_bytes(int(self.headers[b'Content-Length']), ...)`
(proxy.py:306-308).  `some` carries the issued read with the parsed
length; `none` models `int()` raising `ValueError` on a malformed value,
which leaves the handler uncaught. -/
def bodyActions (m : Headers) : Option (List PAction) :=
  match odGet (chars "Content-Length") m with
  | some v => (pyInt v).map (fun n => [PAction.readBody n])
  | none => some []

/-- What the connector's callback delivers to `on_connected`: `None`
(failure), a real upstream stream, or the `RejectConnector` class itself —
`RejectConnector.connect` calls `callback(RejectConnector)`, a truthy
object whose `write` discards everything and whose `read_until_close`
synchronously hands the callback `b'HTTP/1.1 410 Gone\r\n\r\n'` and then
`b''` (proxy.py:112-122). -/
inductive Upstream where
  | failed : Upstream
  | stream : Upstream
  | rejectStub : Upstream
deriving DecidableEq

/-- `ProxyHandler.on_connected` (proxy.py:297-314).  The handler first
computes `urlunparse((b'', b'') + urlparse(self.url)[2:])` (line 300); a
`ValueError` there (invalid bracketed netloc) is not a
`StreamClosedError`, so it escapes the `try` uncaught before anything is
written (`raiseError`).  With a stream: write the rewritten request,
then, when `Content-Length` is present, `int()` its value — a malformed
value raises uncaught after the request writes — and pump the body, then
relay the upstream's bytes back to the client
(`outgoing.read_until_close(writer_in, writer_in)`).  With the Reject
stub the same calls run, but the request writes are discarded by
`RejectConnector.write`; a malformed `Content-Length` still raises before
`read_until_close`, so no 410 is produced; otherwise
`RejectConnector.read_until_close` immediately feeds
`writer_in = write_to(self.incoming)` the 410 bytes and then `b''`, i.e.
one write of the 410 response to the client followed by closing it.
With `None`: close the client. -/
def on_connected (o : Upstream) (method url ver : List Char) (m : Headers) :
    List PAction :=
  match o with
  | .failed => [PAction.closeIn]
  | .stream =>
    match pathOnly url with
    | none => [PAction.raiseError]
    | some p =>
      ((requestPayloads method p ver m).map PAction.writeOut)
        ++ (match bodyActions m with
            | some acts => acts ++ [PAction.relayRespToClient]
            | none => [PAction.raiseError])
  | .rejectStub =>
    match pathOnly url with
    | none => [PAction.raiseError]
    | some _ =>
      match bodyActions m with
      | some acts => acts ++ [PAction.writeIn gone410, PAction.closeIn]
      | none => [PAction.raiseError]

/-- The payload of an upstream-write action. -/
def outPayload : PAction → Option (List Char)
  | PAction.writeOut bs => some bs
  | _ => none

/-- Is the action visible on the client stream (a write to it or its
close)? -/
def isClientAction : PAction → Bool
  | PAction.writeIn _ => true
  | PAction.closeIn => true
  | _ => false

/-- The client-visible actions of a handler run. -/
def clientView (acts : List PAction) : List PAction :=
  acts.filter isClientAction

/-! ### C2, C7, C8 -/

/-- C2 (evaluation at the failing input): when the connector succeeds and
the client is still open, the session writes exactly
`HTTP/1.1 200 Connection Established\r\n\r\n` and starts the relay — the
claim's success half.  But when that write raises because the client
already closed, the code closes both streams and then *still* calls
`pipe(self.incoming, outgoing)`: proxy.py:323 sits after the
`try/except`, unlike the sibling `on_connected`, which keeps all follow-up
inside its `try`.  This contradicts the claim's (and the spec's) "close
both streams without relaying". -/
theorem c2_connect_established_bug :
    on_connect_connected true false
      = [PAction.writeIn resp200, PAction.startRelay]
    ∧ on_connect_connected true true
      = [PAction.closeIn, PAction.closeOut, PAction.startRelay]
    ∧ PAction.startRelay ∈ on_connect_connected true true := by
  refine ⟨rfl, rfl, by decide⟩

/-- C7 counterexample: the request line `GET /a\tb HTTP/1.1` does *not*
split into exactly three whitespace-delimited tokens (the tab makes
four), yet `on_method` splits only on single space bytes
(`.split(b' ')`), obtains exactly three tokens, and proceeds to the
header read instead of aborting. -/
theorem c7_counterexample :
    (pyWsSplit (pyStrip (chars "GET /a\tb HTTP/1.1\r\n"))).length = 4
    ∧ (on_method (chars "GET /a\tb HTTP/1.1\r\n")).2
        = some (chars "GET", chars "/a\tb", chars "HTTP/1.1")
    ∧ (on_method (chars "GET /a\tb HTTP/1.1\r\n")).1 = [] := by
  refine ⟨by decide, by decide, by decide⟩

/-- C7 amended: the stripped request line is split on single space bytes
(`strip().split(b' ')` — consecutive spaces yield empty tokens and tabs do
not delimit); whenever that split yields anything other than exactly three
tokens, the unpacking raises, the session aborts, the client connection is
closed and no response bytes are written. -/
theorem c7_request_line_amended (line : List Char)
    (h : (pySplitChar ' ' (pyStrip line)).length ≠ 3) :
    on_method line = ([PAction.closeIn], none) := by
  unfold on_method
  split
  · next m u v heq =>
    refine absurd (?_ : (pySplitChar ' ' (pyStrip line)).length = 3) h
    rw [heq]
    rfl
  · rfl

/-- Witness for C7 amended at the one-token line `BADLINE`. -/
theorem c7_request_line_amended_witness :
    (pySplitChar ' ' (pyStrip (chars "BADLINE\r\n"))).length ≠ 3
    ∧ on_method (chars "BADLINE\r\n") = ([PAction.closeIn], none) :=
  ⟨by decide, c7_request_line_amended (chars "BADLINE\r\n") (by decide)⟩

/-- A successfully issued body read contributes no upstream write and no
client-visible action. -/
theorem bodyActions_some_no_out (m : Headers) (acts : List PAction)
    (h : bodyActions m = some acts) :
    acts.filterMap outPayload = [] ∧ clientView acts = [] := by
  unfold bodyActions at h
  cases hg : odGet (chars "Content-Length") m with
  | none =>
    rw [hg] at h
    dsimp only at h
    rw [Option.some.injEq] at h
    subst h
    exact ⟨rfl, rfl⟩
  | some v =>
    rw [hg] at h
    dsimp only at h
    cases hi : pyInt v with
    | none =>
      rw [hi] at h
      simp at h
    | some n =>
      rw [hi] at h
      rw [Option.map_some', Option.some.injEq] at h
      subst h
      exact ⟨rfl, rfl⟩

/-- C8 counterexample: the claim's Reject clause fails for a plain
request carrying `Content-Length: abc` — `int(b'abc')` raises
`ValueError` at proxy.py:308, before `RejectConnector.read_until_close`
would produce the 410, so the client sees no write at all (the callback
runner then closes it); the claim asserts it receives the 410 bytes
followed by end-of-stream. -/
theorem c8_counterexample :
    pyInt (chars "abc") = none
    ∧ on_connected Upstream.rejectStub (chars "GET") (chars "http://h/a")
        (chars "HTTP/1.1")
        (processPlainHeaders (odOfPairs
          [(chars "Host", chars "h"), (chars "Content-Length", chars "abc")]))
      = [PAction.raiseError]
    ∧ clientView [PAction.raiseError] = [] := by
  refine ⟨rfl, by decide, rfl⟩

/-- C8 amended: whenever the connector reports failure
(`callback(None)`), both the CONNECT callback and the plain callback
close the client stream having written zero bytes to it; and for a plain
request routed to the Reject connector whose target parses and whose
`Content-Length` header, if present, parses as an integer, the client
instead sees exactly one write of `HTTP/1.1 410 Gone\r\n\r\n` followed by
the close (end-of-stream).  (A malformed `Content-Length` or unparsable
target raises out of the handler before the synthesized response, and the
client is closed with zero bytes written.) -/
theorem c8_failure_closes_client (cc : Bool)
    (method url ver p : List Char) (m : Headers) (acts : List PAction)
    (hurl : pathOnly url = some p) (hbody : bodyActions m = some acts) :
    on_connect_connected false cc = [PAction.closeIn]
    ∧ on_connected Upstream.failed method url ver m = [PAction.closeIn]
    ∧ clientView (on_connected Upstream.rejectStub method url ver m)
        = [PAction.writeIn gone410, PAction.closeIn] := by
  refine ⟨rfl, rfl, ?_⟩
  have hred : on_connected Upstream.rejectStub method url ver m
      = acts ++ [PAction.writeIn gone410, PAction.closeIn] := by
    unfold on_connected
    rw [hurl, hbody]
  rw [hred]
  unfold clientView
  rw [List.filter_append,
    (show List.filter isClientAction acts = [] from
      (bodyActions_some_no_out m acts hbody).2)]
  rfl

/-- Witness for C8 amended: Reject-routed `GET http://h/a` with
`Content-Length: 5` delivers the 410 then the close. -/
theorem c8_failure_closes_client_witness :
    pathOnly (chars "http://h/a") = some (chars "/a")
    ∧ bodyActions (processPlainHeaders (odOfPairs
        [(chars "Host", chars "h"), (chars "Content-Length", chars "5")]))
      = some [PAction.readBody 5]
    ∧ clientView (on_connected Upstream.rejectStub (chars "GET")
        (chars "http://h/a") (chars "HTTP/1.1")
        (processPlainHeaders (odOfPairs
          [(chars "Host", chars "h"), (chars "Content-Length", chars "5")])))
      = [PAction.writeIn gone410, PAction.closeIn] :=
  ⟨by decide, by decide,
   (c8_failure_closes_client true (chars "GET") (chars "http://h/a")
     (chars "HTTP/1.1") (chars "/a") _ [PAction.readBody 5]
     (by decide) (by decide)).2.2⟩

/-! ### OrderedDict lemmas (for C6) -/

end Proxy
